import Mathlib

/-!
Verification of the booking computation and calendar-import engine of the
events-tracker application (source: src/src/App.tsx). The pure functions of
the source are embedded shallowly: JavaScript numbers are modeled as exact
rationals (no NaN is stored in a booking, since every numeric field passes
through the zero-defaulting coercion `toNum` before storage), strings are
Lean strings, and the handful of ECMAScript runtime behaviours the source
leans on (ToNumber on strings, Date parsing, Array.prototype.sort) are
modeled explicitly where a claim depends on them, with the modeling scope
recorded in each definition's doc comment.
-/

namespace EventsTracker

/-- The closed Status enumeration of the source (STATUSES). "On hold" is
spelled OnHold. -/
inductive Status
  | Taken
  | Booked
  | Canceled
  | OnHold
  | Free
  deriving DecidableEq, Repr

/-- The closed Room enumeration of the source (ROOMS). -/
inductive Room
  | Cafe
  | Hall
  | Backyard
  | SeminarRoom
  | ConferencesRoom
  | Pavilion
  deriving DecidableEq, Repr

/-- The EventRow record of the source. The source field `end` is spelled
`endTime` here because `end` is a Lean keyword. Monetary and count fields
are exact rationals: every value stored in them in the source has passed
through `toNum`, which never produces NaN or infinity. -/
structure EventRow where
  id : String
  name : String
  date : String
  start : String
  endTime : String
  rooms : List Room
  status : Status
  guests : ℚ
  rate : ℚ
  day : ℚ
  fee : ℚ
  food : ℚ
  drinks : ℚ
  cancelReason : String
  notes : String
  deriving DecidableEq, Repr

/-! ## ECMAScript numeric coercion (the `+v` in `toNum`, source line 48) -/

/-- Numeric value of a list of decimal digit characters. -/
def digitsVal (cs : List Char) : ℕ :=
  cs.foldl (fun a c => 10 * a + (c.toNat - 48)) 0

/-- The whitespace characters stripped by ECMAScript StringToNumber before
reading the numeric literal (restricted to the ASCII whitespace that can
occur in this app's inputs). -/
def jsSpace (c : Char) : Bool :=
  c == ' ' || c == '\t' || c == '\n' || c == '\r'

/-- Strip leading and trailing whitespace, as StringToNumber does. -/
def trimChars (cs : List Char) : List Char :=
  ((cs.dropWhile jsSpace).reverse.dropWhile jsSpace).reverse

/-- Models ECMAScript ToNumber on a string (the `+v` coercion), for the
decimal forms that reach it in this app: optional sign, then decimal digits
with an optional fractional part. A whitespace-only string is 0. `none`
represents NaN. Hexadecimal, exponent and Infinity forms never occur in the
app's inputs and are out of the modeled scope. -/
def strToNumList (cs0 : List Char) : Option ℚ :=
  let cs := trimChars cs0
  if cs = [] then some 0
  else
    let sb : Bool × List Char :=
      match cs with
      | '-' :: rest => (true, rest)
      | '+' :: rest => (false, rest)
      | _ => (false, cs)
    let ip := sb.2.takeWhile Char.isDigit
    let rest := sb.2.dropWhile Char.isDigit
    let signed : ℚ → ℚ := fun v => if sb.1 then -v else v
    match rest with
    | [] => if ip = [] then none else some (signed (digitsVal ip : ℚ))
    | '.' :: fr =>
        if fr.all Char.isDigit && (!ip.isEmpty || !fr.isEmpty) then
          some (signed ((digitsVal ip : ℚ) + (digitsVal fr : ℚ) / (10 : ℚ) ^ fr.length))
        else none
    | _ => none

/-- ToNumber on a whole string. -/
def strToNum (s : String) : Option ℚ :=
  strToNumList s.toList

/-- A JavaScript value of one of the shapes that reach `toNum` in the
source: null, undefined, a (finite) number, or a string. -/
inductive JSValue
  | vnull
  | vundef
  | vnum (q : ℚ)
  | vstr (s : String)
  deriving DecidableEq, Repr

/-- toNum from the source, line 48:
`(v) => (v === null || v === undefined || v === "" || isNaN(+v) ? 0 : +v)`.
For null, undefined and the empty string the guard fires directly; for any
other string, `+v` is StringToNumber and NaN (`none`) falls back to 0; a
finite number is returned unchanged (`isNaN` is false on it). -/
def toNum : JSValue → ℚ
  | .vnull => 0
  | .vundef => 0
  | .vnum q => q
  | .vstr s => if s = "" then 0 else (strToNum s).getD 0

/-! ## parseTime / durationHrs (source lines 50-65) -/

/-- Truncation of a rational toward zero, as ECMAScript ToIntegerOrInfinity
(used by Date.prototype.setHours) performs on its finite arguments. -/
def truncQ (q : ℚ) : Int :=
  Int.tdiv q.num (q.den : Int)

/-- Split a character list at every occurrence of a separator, like
String.prototype.split with a single-character separator. -/
def splitOnChar (sep : Char) : List Char → List (List Char)
  | [] => [[]]
  | c :: cs =>
    let r := splitOnChar sep cs
    if c == sep then [] :: r
    else
      match r with
      | [] => [[c]]
      | h :: t => (c :: h) :: t

/-- parseTime from the source (lines 50-59), reduced to the minute offset
from the given date's midnight that `d.setHours(h || 0, m || 0, 0, 0)`
establishes. Both endpoints of a booking combine the same date, so the
difference taken by durationHrs depends only on this offset; local time is
modeled as uniform (DST jumps are outside the model). The catch branch of
the source is dead — none of split, map-Number, the Date constructor or
setHours throws — and is therefore not represented. `Number(x) || 0` maps
NaN (and an absent second component, whose Number is NaN) to 0, which the
`getD 0` below performs. -/
def parseTimeMinutes (timeStr : String) : Int :=
  let t := if timeStr = "" then "0:0" else timeStr
  let comps := splitOnChar ':' t.toList
  let h := ((comps[0]?).bind strToNumList).getD 0
  let m := ((comps[1]?).bind strToNumList).getD 0
  truncQ h * 60 + truncQ m

/-- durationHrs from the source (lines 61-65): the millisecond difference
of the two combined points divided by 3,600,000, floored at 0. One minute
is 60,000 milliseconds. -/
def durationHrs (e : EventRow) : ℚ :=
  let s := parseTimeMinutes e.start
  let en := parseTimeMinutes e.endTime
  max 0 (((en - s : Int) : ℚ) * 60000 / 3600000)

/-! ## Booking valuation (source lines 67-90) -/

/-- rentalPart from the source (lines 67-72). -/
def rentalPart (e : EventRow) : ℚ :=
  if e.status = .Free then 0
  else if e.fee > 0 then e.fee
  else if e.day > 0 then e.day
  else e.rate * durationHrs e

/-- revenueFor from the source (lines 74-77). -/
def revenueFor (e : EventRow) : ℚ :=
  (if e.status = .Taken then rentalPart e else 0) + (e.food + e.drinks)

/-- lostFor from the source (lines 79-82). -/
def lostFor (e : EventRow) : ℚ :=
  if e.status ≠ .Canceled then 0 else rentalPart e

/-! ## yearOf and the per-year bucket key (source lines 84-90, 257-270) -/

/-- The result of getFullYear() on a JavaScript Date: a number, which is
NaN exactly when the Date is invalid. -/
inductive JSYearNum
  | val (y : Int)
  | nan
  deriving DecidableEq, Repr

/-- Day count of a month (1-12) in the proleptic Gregorian calendar, used
by the Date validity check. -/
def daysInMonth (y m : ℕ) : ℕ :=
  if m = 1 || m = 3 || m = 5 || m = 7 || m = 8 || m = 10 || m = 12 then 31
  else if m = 4 || m = 6 || m = 9 || m = 11 then 30
  else if (y % 4 = 0 && y % 100 ≠ 0) || y % 400 = 0 then 29
  else 28

/-- Models `new Date(s).getFullYear()` for the strings this app stores in
a booking's date field: the ECMAScript date-only ISO form YYYY-MM-DD (the
only shape produced by the date input widget and by the importer's
formatter) parses to a valid Date whose year is YYYY; every other string
gives an Invalid Date, whose getFullYear() is NaN. The Date constructor
never throws on a string. Local time is modeled with UTC offset 0 (a
date-only ISO string denotes UTC midnight, so in negative-offset zones
getFullYear of a January 1 date would differ; that environmental effect is
outside the model). Engine-specific fallback parsing of non-ISO shapes is
likewise outside the model. -/
def jsDateFullYear (s : String) : JSYearNum :=
  match s.toList with
  | [y1, y2, y3, y4, c1, m1, m2, c2, d1, d2] =>
    if ([y1, y2, y3, y4, m1, m2, d1, d2].all Char.isDigit) && c1 == '-' && c2 == '-' then
      let y := digitsVal [y1, y2, y3, y4]
      let mo := digitsVal [m1, m2]
      let d := digitsVal [d1, d2]
      if 1 ≤ mo && mo ≤ 12 && 1 ≤ d && d ≤ daysInMonth y mo then JSYearNum.val (y : Int)
      else JSYearNum.nan
    else JSYearNum.nan
  | _ => JSYearNum.nan

/-- yearOf from the source (lines 84-90). The Option layer models the catch
branch returning undefined; it is unreachable, because the Date constructor
does not throw on an unparsable string — it yields an Invalid Date, and
getFullYear() on it is NaN. -/
def yearOf (e : EventRow) : Option JSYearNum :=
  some (jsDateFullYear e.date)

/-- The per-year grouping key of the source (line 260):
`String(yearOf(e) ?? "—")`. The `??` fallback fires only on
null/undefined; String(NaN) is "NaN" and String of an integer year is its
decimal notation. -/
def yearKey (e : EventRow) : String :=
  match yearOf e with
  | none => "—"
  | some (.val y) => toString y
  | some .nan => "NaN"

/-- The set of bucket keys the per-year breakdown (source lines 257-270)
creates for a list of bookings, in first-appearance order. -/
def perYearBuckets (l : List EventRow) : List String :=
  l.foldl (fun acc e => let k := yearKey e; if k ∈ acc then acc else acc ++ [k]) []

/-! ## asLocal, the ICS date/time decoder (source lines 116-127) -/

/-- The decoded value asLocal passes to the Date constructor: either an
all-day date `new Date(y, mo, d)` or a date-time, built with
`Date.UTC(...)` when the matched value carried a trailing Z (utc = true)
and with the local constructor otherwise. The month field mo is 0-based,
exactly as the source computes it (`+slice - 1`). The local/UTC distinction
is kept as a flag because the resulting absolute time depends on the
environment's zone, which the model does not fix. -/
inductive ICSDate
  | allDay (y mo d : Int)
  | dateTime (y mo d hh mi ss : Int) (utc : Bool)
  deriving DecidableEq, Repr

/-- Whether the source's unanchored regular expression
`([0-9]{8})T([0-9]{2})([0-9]{2})([0-9]{2})(Z?)` matches at position i of
the character list: eight digits, a literal T, six digits. The optional Z
group never affects whether a position matches. -/
def dtMatchAt (cs : List Char) (i : ℕ) : Bool :=
  let seg := cs.drop i
  (seg.take 8).length = 8 && (seg.take 8).all Char.isDigit
    && (seg.drop 8).take 1 = ['T']
    && ((seg.drop 9).take 6).length = 6 && ((seg.drop 9).take 6).all Char.isDigit

/-- Whether the greedy optional Z group captures a Z at a match starting at
position i (i.e. the character right after the six time digits is Z). -/
def dtZAt (cs : List Char) (i : ℕ) : Bool :=
  (cs.drop (i + 15)).take 1 = ['Z']

/-- The date-time value decoded from a match at position i, with the same
slices the source takes from the capture groups. -/
def decodeDT (cs : List Char) (i : ℕ) : ICSDate :=
  let seg := cs.drop i
  ICSDate.dateTime
    (digitsVal (seg.take 4) : Int)
    ((digitsVal ((seg.drop 4).take 2) : Int) - 1)
    (digitsVal ((seg.drop 6).take 2) : Int)
    (digitsVal ((seg.drop 9).take 2) : Int)
    (digitsVal ((seg.drop 11).take 2) : Int)
    (digitsVal ((seg.drop 13).take 2) : Int)
    (dtZAt cs i)

/-- asLocal from the source (lines 116-127). `none` input stands for the
absent/null property; a falsy (empty) string is rejected first; a string of
exactly eight digits (the anchored test `^[0-9]{8}$`) is an all-day date;
otherwise `String.prototype.match` searches the unanchored date-time
pattern left to right and the first matching position is decoded; with no
match the result is null. -/
def asLocal : Option String → Option ICSDate
  | none => none
  | some s =>
    if s = "" then none
    else
      let cs := s.toList
      if cs.length = 8 && cs.all Char.isDigit then
        some (ICSDate.allDay
          (digitsVal (cs.take 4) : Int)
          ((digitsVal ((cs.drop 4).take 2) : Int) - 1)
          (digitsVal ((cs.drop 6).take 2) : Int))
      else
        ((List.range cs.length).find? (fun i => dtMatchAt cs i)).map (fun i => decodeDT cs i)

/-- The shape condition of the specification, in the spec's words: the
whole value is exactly eight digits, or exactly eight digits, a T and six
digits optionally followed by a Z. Used to compare the spec's reading of
the decoder against the source's unanchored search. -/
def specDateShape (s : String) : Bool :=
  let cs := s.toList
  (cs.length = 8 && cs.all Char.isDigit)
    || ((cs.length = 15 || (cs.length = 16 && cs.drop 15 = ['Z']))
        && (cs.take 8).all Char.isDigit
        && (cs.drop 8).take 1 = ['T']
        && ((cs.drop 9).take 6).all Char.isDigit)

/-! ## Room inference from keyword rules (source lines 93, 148-153) -/

/-- The Rule pairing of the source (line 93): a room and its keywords. -/
structure RuleT where
  room : Room
  kws : List String
  deriving DecidableEq, Repr

/-- Whether `needle` occurs at the head of `hay`. -/
def startsWithChars : List Char → List Char → Bool
  | _, [] => true
  | [], _ :: _ => false
  | a :: as, b :: bs => a == b && startsWithChars as bs

/-- String.prototype.includes: `needle` occurs as a contiguous substring of
`hay` (every string includes the empty string). -/
def strHasSub (hay needle : String) : Bool :=
  let h := hay.toList
  (List.range (h.length + 1)).any (fun i => startsWithChars (h.drop i) needle.toList)

/-- guessRooms from the source (lines 148-153): lowercase the concatenation
of summary and location, collect into a Set the room of every rule one of
whose keywords occurs in it, and return the set as a list. The JS Set
iterates in insertion order, so the set is modeled as a list to which a
room is appended only when not yet present. -/
def guessRooms (summary location : String) (rules : List RuleT) : List Room :=
  let hay := (summary ++ " " ++ location).toLower
  rules.foldl
    (fun acc r =>
      if r.kws.any (fun k => strHasSub hay k) then
        (if r.room ∈ acc then acc else acc ++ [r.room])
      else acc)
    []

/-! ## Per-room breakdown (source lines 238-255) -/

/-- One room's accumulator row of the per-room breakdown. -/
structure RoomStats where
  events : ℕ
  revenue : ℚ
  lost : ℚ
  guests : ℚ
  deriving DecidableEq, Repr

/-- The body of the per-room loop for one room r of one booking (source
lines 247-251): bump the event count, add the Taken-only revenue share
rent/n, add the lost share lost/n, and add the full (undivided) guest count
when Taken. `e.guests || 0` is the identity here: guests is an exact
rational (never NaN), and `0 || 0` is 0. -/
def updateRoomStats (e : EventRow) (rent lost n : ℚ) (st : RoomStats) : RoomStats :=
  RoomStats.mk (st.events + 1)
    (st.revenue + (if e.status = .Taken then rent / n else 0))
    (st.lost + lost / n)
    (st.guests + (if e.status = .Taken then e.guests else 0))

/-- The inner `for (const r of ...)` loop of the per-room breakdown,
threading the room-indexed accumulator map. -/
def foldRooms (e : EventRow) (rent lost n : ℚ) :
    List Room → (Room → RoomStats) → (Room → RoomStats)
  | [], m => m
  | r :: rs, m =>
      foldRooms e rent lost n rs
        (fun r2 => if r2 = r then updateRoomStats e rent lost n (m r2) else m r2)

/-- One booking's pass of the per-room breakdown (source lines 241-253):
`rooms` is `e.rooms.length ? e.rooms : []`, the divisor n is
`Math.max(1, rooms.length)`, rent and lost are computed once, and the loop
runs over `rooms.length ? rooms : []`. The accumulator is total over Room
(the source pre-seeds every room with zeros and re-seeds on demand), so the
`if (!map[r])` guard has no observable effect. -/
def applyBooking (e : EventRow) (m : Room → RoomStats) : Room → RoomStats :=
  let rooms := if e.rooms.length ≠ 0 then e.rooms else []
  let n : ℚ := max 1 (rooms.length : ℚ)
  foldRooms e (rentalPart e) (lostFor e) n (if rooms.length ≠ 0 then rooms else []) m

/-- The zero-seeded accumulator (source line 240). -/
def initRoomStats : Room → RoomStats :=
  fun _ => RoomStats.mk 0 0 0 0

/-- The whole per-room breakdown over a booking list. -/
def perRoom (l : List EventRow) : Room → RoomStats :=
  l.foldl (fun m e => applyBooking e m) initRoomStats

/-! ## The sort of the filtered list (source line 216) -/

/-- The comparator of the source:
`(a, b) => (a.date > b.date ? 1 : -1)`. It never returns 0: two bookings
with equal date strings compare as -1 in both argument orders, so it is not
a consistent comparator in the ECMAScript sense. -/
def dateCmp (a b : EventRow) : Int :=
  if a.date > b.date then 1 else -1

/-- Sortedness with respect to the comparator: every earlier element
compares ≤ 0 against every later one. -/
def sortedByDateCmp (out : List EventRow) : Prop :=
  out.Pairwise (fun a b => dateCmp a b ≤ 0)

/-- Models the observable guarantee of ECMAScript Array.prototype.sort for
this call: a possible result is a permutation of the input that is sorted
with respect to the comparator. ES2023 pins the result down to the unique
stable one only when the comparator is consistent; dateCmp is not (it
returns -1, never 0, on ties), so every such permutation is a possible
implementation-defined outcome and tie order is not determined. -/
def sortResult (l out : List EventRow) : Prop :=
  l.Perm out ∧ sortedByDateCmp out

/-- Ascending lexicographic date order, the order the claim describes. -/
def dateAsc (a b : EventRow) : Prop :=
  a.date ≤ b.date

/-! ## Concrete bookings used as witnesses and counterexamples -/

/-- A Booked booking with all three price fields set and food and drinks
revenue: fee 5, day 7, hourly rate 3, food 4, drinks 6. -/
def rowFee : EventRow :=
  EventRow.mk "id1" "fee row" "2024-03-10" "10:00" "12:00" [] .Booked 0 3 7 5 4 6 "" ""

/-- A Taken booking spanning Cafe and Hall with fee 100 and 20 guests. -/
def rowTaken2 : EventRow :=
  EventRow.mk "id2" "two rooms" "2024-04-05" "09:00" "17:00" [.Cafe, .Hall] .Taken 20 0 0 100 0 0 "" ""

/-- A booking whose end time is before its start time. -/
def rowBackwards : EventRow :=
  EventRow.mk "id3" "backwards" "2024-04-06" "10:00" "09:00" [] .Taken 0 12 0 0 0 0 "" ""

/-- A booking with an unparsable date string. -/
def rowBadDate : EventRow :=
  EventRow.mk "id4" "bad date" "not-a-date" "10:00" "11:00" [] .Taken 0 0 0 0 0 0 "" ""

/-- A booking with a well-formed date in 2024. -/
def rowGoodDate : EventRow :=
  EventRow.mk "id5" "good date" "2024-05-01" "10:00" "11:00" [] .Taken 0 0 0 0 0 0 "" ""

/-- First of two bookings sharing the date 2024-01-01. -/
def rowTieA : EventRow :=
  EventRow.mk "idA" "tie a" "2024-01-01" "10:00" "11:00" [] .Taken 0 0 0 0 0 0 "" ""

/-- Second of two bookings sharing the date 2024-01-01. -/
def rowTieB : EventRow :=
  EventRow.mk "idB" "tie b" "2024-01-01" "12:00" "13:00" [] .Taken 0 0 0 0 0 0 "" ""

instance : DecidableRel dateAsc :=
  fun a b => inferInstanceAs (Decidable (a.date ≤ b.date))

instance : IsTotal EventRow dateAsc :=
  ⟨fun a b => le_total a.date b.date⟩

instance : IsTrans EventRow dateAsc :=
  ⟨fun _ _ _ h1 h2 => le_trans h1 h2⟩

/-! ## Helper lemmas -/

theorem dateCmp_nonpos_iff (a b : EventRow) : dateCmp a b ≤ 0 ↔ dateAsc a b := by
  unfold dateCmp dateAsc
  by_cases h : a.date > b.date
  · rw [if_pos h]
    constructor
    · intro h1; exact absurd h1 (by norm_num)
    · intro h1; exact absurd h1 (not_le.mpr h)
  · rw [if_neg h]
    constructor
    · intro _; exact le_of_not_lt h
    · intro _; norm_num

theorem foldRooms_not_mem (e : EventRow) (rent lost n : ℚ) (rs : List Room)
    (m : Room → RoomStats) (r : Room) :
    r ∉ rs → foldRooms e rent lost n rs m r = m r := by
  induction rs generalizing m with
  | nil => intro _; rfl
  | cons a as ih =>
    intro h
    have hra : r ≠ a := fun hEq => h (hEq ▸ List.mem_cons_self a as)
    have hras : r ∉ as := fun hm => h (List.mem_cons_of_mem a hm)
    rw [foldRooms, ih _ hras]
    simp [hra]

theorem foldRooms_mem (e : EventRow) (rent lost n : ℚ) (rs : List Room)
    (m : Room → RoomStats) (r : Room) :
    rs.Nodup → r ∈ rs → foldRooms e rent lost n rs m r = updateRoomStats e rent lost n (m r) := by
  induction rs generalizing m with
  | nil => intro _ h; cases h
  | cons a as ih =>
    intro hnd h
    rw [foldRooms]
    rcases List.mem_cons.mp h with rfl | hmem
    · rw [foldRooms_not_mem e rent lost n as _ r (List.nodup_cons.mp hnd).1]
      simp
    · have hra : r ≠ a := fun hEq => (List.nodup_cons.mp hnd).1 (hEq ▸ hmem)
      rw [ih _ (List.nodup_cons.mp hnd).2 hmem]
      simp [hra]

theorem bookingRooms_eq (e : EventRow) :
    (if e.rooms.length ≠ 0 then e.rooms else []) = e.rooms := by
  by_cases h : e.rooms.length ≠ 0
  · rw [if_pos h]
  · rw [if_neg h, List.length_eq_zero.mp (not_not.mp h)]

theorem applyBooking_eq (e : EventRow) (m : Room → RoomStats) :
    applyBooking e m
      = foldRooms e (rentalPart e) (lostFor e) (max 1 ((e.rooms.length : ℚ))) e.rooms m := by
  simp only [applyBooking, bookingRooms_eq]

theorem foldl_addNew_nodup (p : RuleT → Bool) (rules : List RuleT) (acc : List Room) :
    acc.Nodup →
      (rules.foldl
        (fun a r => if p r then (if r.room ∈ a then a else a ++ [r.room]) else a) acc).Nodup := by
  induction rules generalizing acc with
  | nil => intro h; simpa using h
  | cons rule rest ih =>
    intro h
    simp only [List.foldl_cons]
    apply ih
    by_cases h1 : p rule = true
    · rw [if_pos h1]
      by_cases h2 : rule.room ∈ acc
      · rwa [if_pos h2]
      · rw [if_neg h2]
        rw [List.nodup_append]
        exact ⟨h, List.nodup_singleton _, fun x hx hx1 => h2 ((List.mem_singleton.mp hx1) ▸ hx)⟩
    · rwa [if_neg h1]

theorem dtMatchAt_lt (cs : List Char) (i : ℕ) : dtMatchAt cs i = true → i < cs.length := by
  intro h
  by_contra hge
  push_neg at hge
  rw [dtMatchAt] at h
  simp [List.drop_eq_nil_of_le hge] at h

/-! ## Claims -/

/-- C1: rentalCharge returns 0 when status is Free; otherwise it returns
fee when fee > 0, else day when day > 0, else rate times the duration in
hours — a strict precedence chain (fixed fee over day rate over hourly
rate) evaluated in that fixed order regardless of which of fee, day, rate
are simultaneously non-zero. -/
theorem rentalPart_precedence (e : EventRow) :
    (e.status = .Free → rentalPart e = 0)
  ∧ (e.status ≠ .Free →
      (e.fee > 0 → rentalPart e = e.fee)
    ∧ (¬ e.fee > 0 → e.day > 0 → rentalPart e = e.day)
    ∧ (¬ e.fee > 0 → ¬ e.day > 0 → rentalPart e = e.rate * durationHrs e)) := by
  unfold rentalPart
  refine ⟨fun h => by simp [h], fun h => ⟨fun hf => by simp [h, hf],
    fun hf hd => by simp [h, hf, hd], fun hf hd => by simp [h, hf, hd]⟩⟩

/-- Witness for C1: a Booked booking with fee 5, day 7, rate 3 is charged
its fee. -/
theorem rentalPart_precedence_witness :
    rowFee.status ≠ .Free ∧ rowFee.fee > 0 ∧ rentalPart rowFee = rowFee.fee :=
  ⟨by decide, by decide, ((rentalPart_precedence rowFee).2 (by decide)).1 (by decide)⟩

/-- C2: totalRevenue equals rentalCharge + food + drinks when status is
exactly Taken, and equals food + drinks for every other status; in
particular a Free booking's totalRevenue is exactly food + drinks. -/
theorem revenueFor_status (e : EventRow) :
    (e.status = .Taken → revenueFor e = rentalPart e + (e.food + e.drinks))
  ∧ (e.status ≠ .Taken → revenueFor e = e.food + e.drinks)
  ∧ (e.status = .Free → revenueFor e = e.food + e.drinks) := by
  unfold revenueFor
  refine ⟨fun h => by simp [h], fun h => by simp [h], fun h => by simp [h]⟩

/-- Witness for C2: the Booked booking rowFee earns only food + drinks. -/
theorem revenueFor_status_witness :
    rowFee.status ≠ .Taken ∧ revenueFor rowFee = rowFee.food + rowFee.drinks :=
  ⟨by decide, (revenueFor_status rowFee).2.1 (by decide)⟩

/-- C6: durationHours is floored at 0 and never negative; whenever the end
point is not after the start point, the duration is zero. -/
theorem durationHrs_floor (e : EventRow) :
    0 ≤ durationHrs e
  ∧ (parseTimeMinutes e.endTime ≤ parseTimeMinutes e.start → durationHrs e = 0) := by
  constructor
  · exact le_max_left 0 _
  · intro h
    have h1 : ((parseTimeMinutes e.endTime - parseTimeMinutes e.start : Int) : ℚ) ≤ 0 := by
      exact_mod_cast sub_nonpos.mpr h
    have h2 : ((parseTimeMinutes e.endTime - parseTimeMinutes e.start : Int) : ℚ)
        * 60000 / 3600000 ≤ 0 := by linarith
    simp only [durationHrs]
    exact max_eq_left h2

/-- Witness for C6: a booking ending at 09:00 after starting at 10:00 has
duration 0. -/
theorem durationHrs_floor_witness :
    parseTimeMinutes rowBackwards.endTime ≤ parseTimeMinutes rowBackwards.start
  ∧ durationHrs rowBackwards = 0 :=
  ⟨by decide, (durationHrs_floor rowBackwards).2 (by decide)⟩

/-- C9: coerceNumber (toNum) is total and never raises; null, undefined,
the empty string and non-numeric strings (NaN coercions) map to 0, and a
numeric input — a number, or a string that coerces to a number — maps to
that numeric value. Totality is by construction: toNum is a total Lean
function over the value shapes that reach it. -/
theorem toNum_contract :
    toNum .vnull = 0
  ∧ toNum .vundef = 0
  ∧ toNum (.vstr "") = 0
  ∧ (∀ s, strToNum s = none → toNum (.vstr s) = 0)
  ∧ (∀ q, toNum (.vnum q) = q)
  ∧ (∀ s q, strToNum s = some q → toNum (.vstr s) = q) := by
  refine ⟨rfl, rfl, by decide, ?_, fun q => rfl, ?_⟩
  · intro s h
    by_cases hs : s = ""
    · subst hs; decide
    · simp [toNum, hs, h]
  · intro s q h
    by_cases hs : s = ""
    · subst hs
      have h0 : strToNum "" = some 0 := by decide
      rw [h0] at h
      have h1 : (0 : ℚ) = q := Option.some.inj h
      exact h1 ▸ (show toNum (JSValue.vstr "") = 0 from rfl)
    · simp [toNum, hs, h]

/-- Witness for C9: the non-numeric string "abc" coerces to 0. -/
theorem toNum_contract_witness :
    strToNum "abc" = none ∧ toNum (.vstr "abc") = 0 :=
  ⟨by decide, toNum_contract.2.2.2.1 "abc" (by decide)⟩

/-- C10: the room-inference function returns each room at most once, for
every summary, location and rule list — even when several rules for the
same room fire. -/
theorem guessRooms_nodup (summary location : String) (rules : List RuleT) :
    (guessRooms summary location rules).Nodup := by
  unfold guessRooms
  exact foldl_addNew_nodup _ rules [] List.nodup_nil

/-- C3: a booking whose room set has N rooms (N ≥ 1) contributes exactly
rentalCharge/N to each of its rooms' revenue when status is Taken (0
otherwise) and lostRevenue/N to each of its rooms' lost total for any
status; summing one booking's per-room revenue contributions over its N
rooms gives its Taken-only rental charge (exactly, in the rational model);
and a room outside the booking's room set — in particular every room, when
the room set is empty — receives no contribution. -/
theorem perRoom_proportional (e : EventRow) (m : Room → RoomStats) (hnd : e.rooms.Nodup) :
    (∀ r ∈ e.rooms,
        (applyBooking e m r).revenue
            = (m r).revenue
              + (if e.status = .Taken then rentalPart e / (e.rooms.length : ℚ) else 0)
      ∧ (applyBooking e m r).lost = (m r).lost + lostFor e / (e.rooms.length : ℚ))
  ∧ ((e.rooms.map (fun r => (applyBooking e m r).revenue - (m r).revenue)).sum
        = if e.status = .Taken ∧ e.rooms ≠ [] then rentalPart e else 0)
  ∧ (∀ r, r ∉ e.rooms → applyBooking e m r = m r) := by
  have hmax : e.rooms ≠ [] → max 1 ((e.rooms.length : ℚ)) = (e.rooms.length : ℚ) := by
    intro hne
    have h1 : 1 ≤ e.rooms.length := List.length_pos.mpr hne
    exact max_eq_right (by exact_mod_cast h1)
  have key : ∀ r ∈ e.rooms,
      applyBooking e m r
        = updateRoomStats e (rentalPart e) (lostFor e) ((e.rooms.length : ℚ)) (m r) := by
    intro r hr
    rw [applyBooking_eq, hmax (List.ne_nil_of_mem hr)]
    exact foldRooms_mem e _ _ _ e.rooms m r hnd hr
  have knot : ∀ r, r ∉ e.rooms → applyBooking e m r = m r := by
    intro r hr
    rw [applyBooking_eq]
    exact foldRooms_not_mem e _ _ _ e.rooms m r hr
  refine ⟨fun r hr => ?_, ?_, knot⟩
  · rw [key r hr]
    exact ⟨rfl, rfl⟩
  · have hdelta : ∀ r ∈ e.rooms,
        (applyBooking e m r).revenue - (m r).revenue
          = (if e.status = .Taken then rentalPart e / (e.rooms.length : ℚ) else 0) := by
      intro r hr
      rw [key r hr]
      simp [updateRoomStats]
    rw [List.map_congr_left hdelta, List.map_const', List.sum_replicate]
    by_cases hne : e.rooms = []
    · simp [hne]
    · have hlen : ((e.rooms.length : ℚ)) ≠ 0 := by
        have h1 : 0 < e.rooms.length := List.length_pos.mpr hne
        exact_mod_cast Nat.pos_iff_ne_zero.mp h1
      by_cases ht : e.status = .Taken
      · simp only [ht, if_true, hne, ne_eq, not_false_eq_true, and_true, true_and]
        rw [nsmul_eq_mul]
        exact mul_div_cancel₀ (rentalPart e) hlen
      · simp [ht]

/-- Witness for C3: the Taken booking with fee 100 over Cafe and Hall puts
revenue 100/2 into the Cafe bucket. -/
theorem perRoom_proportional_witness :
    rowTaken2.rooms.Nodup
  ∧ (applyBooking rowTaken2 initRoomStats Room.Cafe).revenue
      = (initRoomStats Room.Cafe).revenue
        + (if rowTaken2.status = .Taken
            then rentalPart rowTaken2 / (rowTaken2.rooms.length : ℚ) else 0) :=
  ⟨by decide,
    (((perRoom_proportional rowTaken2 initRoomStats (by decide)).1 Room.Cafe (by decide)).1)⟩

/-- C7: a Taken booking contributes its full guest count — not divided by
the number of rooms — to the guest total of every room in its room set,
and contributes 0 guests to every room for any other status (and to rooms
outside its set). -/
theorem perRoom_guests_full (e : EventRow) (m : Room → RoomStats) (hnd : e.rooms.Nodup) :
    ∀ r, (applyBooking e m r).guests
        = (m r).guests + (if r ∈ e.rooms ∧ e.status = .Taken then e.guests else 0) := by
  intro r
  by_cases hr : r ∈ e.rooms
  · have hne : e.rooms ≠ [] := List.ne_nil_of_mem hr
    rw [applyBooking_eq, foldRooms_mem e _ _ _ e.rooms m r hnd hr]
    by_cases ht : e.status = .Taken <;> simp [updateRoomStats, hr, ht]
  · rw [applyBooking_eq, foldRooms_not_mem e _ _ _ e.rooms m r hr]
    simp [hr]

/-- Witness for C7: the Taken booking with 20 guests over two rooms puts
all 20 guests into the Hall bucket. -/
theorem perRoom_guests_full_witness :
    rowTaken2.rooms.Nodup
  ∧ (applyBooking rowTaken2 initRoomStats Room.Hall).guests
      = (initRoomStats Room.Hall).guests
        + (if Room.Hall ∈ rowTaken2.rooms ∧ rowTaken2.status = .Taken
            then rowTaken2.guests else 0) :=
  ⟨by decide, perRoom_guests_full rowTaken2 initRoomStats (by decide) Room.Hall⟩

/-- C4 (code-bug evidence): at the unparsable date "not-a-date" the source
yields NaN, not undefined — the Date constructor does not throw, so the
catch branch returning undefined is dead — and the per-year breakdown
files the booking under the bucket "NaN"; the undefined fallback bucket
"—" the code provides for it is unreachable. A parsable date still maps to
its calendar year, as the claim says. -/
theorem yearOf_unparsable :
    yearOf rowBadDate = some JSYearNum.nan
  ∧ yearKey rowBadDate = "NaN"
  ∧ yearKey rowBadDate ≠ "—"
  ∧ yearOf rowGoodDate = some (JSYearNum.val 2024)
  ∧ "NaN" ∈ perYearBuckets [rowGoodDate, rowBadDate]
  ∧ "—" ∉ perYearBuckets [rowGoodDate, rowBadDate] := by
  refine ⟨by decide, by decide, by decide, by decide, by decide, by decide⟩

/-- C5 counterexample: "x20240115T090000" is neither exactly eight digits
nor a full-string match of eight digits, T, six digits, optional Z — per
the claim it should decode to nothing — yet asLocal decodes it, because
the source regular expression is unanchored and finds the embedded
date-time substring. -/
theorem asLocal_shape_counterexample :
    specDateShape "x20240115T090000" = false
  ∧ asLocal (some "x20240115T090000")
      = some (ICSDate.dateTime 2024 0 15 9 0 0 false) := by
  exact ⟨by decide, by decide⟩

/-- C5 amended: an absent or empty value decodes to nothing; a value of
exactly eight digits decodes to the all-day date with the sliced
components; for every other value, a date-time is decoded exactly when the
value CONTAINS a substring of eight digits, T, six digits (the first such
occurrence, its optional trailing Z marking UTC — illustrated by the two
concrete decodes); values without such a substring yield nothing. -/
theorem asLocal_amended :
    asLocal none = none
  ∧ asLocal (some "") = none
  ∧ (∀ s : String, (s.toList.length = 8 && s.toList.all Char.isDigit) = true →
        asLocal (some s) = some (ICSDate.allDay
          ((digitsVal (s.toList.take 4) : Int))
          ((digitsVal ((s.toList.drop 4).take 2) : Int) - 1)
          ((digitsVal ((s.toList.drop 6).take 2) : Int))))
  ∧ (∀ s : String, ¬ (s.toList.length = 8 && s.toList.all Char.isDigit) = true →
        ((asLocal (some s)).isSome ↔ s ≠ "" ∧ ∃ i, dtMatchAt s.toList i = true))
  ∧ asLocal (some "20240115T090000Z") = some (ICSDate.dateTime 2024 0 15 9 0 0 true)
  ∧ asLocal (some "20240115T090000") = some (ICSDate.dateTime 2024 0 15 9 0 0 false) := by
  refine ⟨rfl, rfl, ?_, ?_, by decide, by decide⟩
  · intro s h
    have hs : s ≠ "" := by
      intro he
      subst he
      exact absurd h (by decide)
    simp only [asLocal, if_neg hs, h, if_true]
  · intro s h
    by_cases hs : s = ""
    · subst hs
      simp [asLocal]
    · have hstep : asLocal (some s)
          = ((List.range s.toList.length).find? (fun i => dtMatchAt s.toList i)).map
              (fun i => decodeDT s.toList i) := by
        simp only [asLocal]
        rw [if_neg hs, if_neg h]
      rw [hstep, Option.isSome_map']
      simp only [ne_eq, hs, not_false_eq_true, true_and]
      rw [List.find?_isSome]
      constructor
      · rintro ⟨i, _, hp⟩
        exact ⟨i, hp⟩
      · rintro ⟨i, hp⟩
        exact ⟨i, List.mem_range.mpr (dtMatchAt_lt s.toList i hp), hp⟩

/-- Witness for C5 amended: the bare eight-digit value "20240115" decodes
to an all-day date, and a value with no embedded date-time substring
decodes to nothing. -/
theorem asLocal_amended_witness :
    ("20240115".toList.length = 8 && "20240115".toList.all Char.isDigit) = true
  ∧ asLocal (some "20240115") = some (ICSDate.allDay
      ((digitsVal ("20240115".toList.take 4) : Int))
      ((digitsVal (("20240115".toList.drop 4).take 2) : Int) - 1)
      ((digitsVal (("20240115".toList.drop 6).take 2) : Int))) :=
  ⟨by decide, asLocal_amended.2.2.1 "20240115" (by decide)⟩

/-- C8 counterexample: the sort comparator returns -1 (never 0) on two
bookings with equal date strings, so it is not a consistent comparator and
ECMAScript leaves the result implementation-defined among the
comparator-sorted permutations; here is a valid sort result that reverses
the original relative order of two equal-date bookings, refuting the
guaranteed-stability part of the claim. -/
theorem sort_tie_not_stable :
    sortResult [rowTieA, rowTieB] [rowTieB, rowTieA]
  ∧ rowTieA.date = rowTieB.date
  ∧ rowTieB ≠ rowTieA := by
  refine ⟨⟨List.Perm.swap rowTieB rowTieA [], ?_⟩, rfl, by decide⟩
  rw [sortedByDateCmp, List.pairwise_cons]
  refine ⟨?_, List.pairwise_singleton _ _⟩
  intro x hx
  rw [List.mem_singleton] at hx
  subst hx
  show dateCmp rowTieB rowTieA ≤ 0
  unfold dateCmp
  rw [show rowTieB.date = rowTieA.date from rfl, if_neg (lt_irrefl rowTieA.date)]
  norm_num

/-- C8 amended: every possible result of the sort is a permutation of the
filtered list arranged in ascending lexicographic order of the date
strings, and a possible result always exists; the relative order of
equal-date bookings is implementation-defined, not guaranteed stable. -/
theorem sort_amended (l out : List EventRow) (h : sortResult l out) :
    out.Perm l ∧ out.Pairwise dateAsc ∧ ∃ res, sortResult l res := by
  refine ⟨h.1.symm, ?_, ?_⟩
  · exact h.2.imp (fun hab => (dateCmp_nonpos_iff _ _).mp hab)
  · refine ⟨List.insertionSort dateAsc l, ?_, ?_⟩
    · exact (List.perm_insertionSort dateAsc l).symm
    · exact (List.sorted_insertionSort dateAsc l).imp
        (fun hab => (dateCmp_nonpos_iff _ _).mpr hab)

/-- Witness for C8 amended: the singleton list is a valid sort result of
itself and the amended properties hold of it. -/
theorem sort_amended_witness :
    [rowTieA].Perm [rowTieA] ∧ [rowTieA].Pairwise dateAsc
  ∧ ∃ res, sortResult [rowTieA] res :=
  sort_amended [rowTieA] [rowTieA] ⟨List.Perm.refl _, List.pairwise_singleton _ _⟩

end EventsTracker
